import Mathlib

/-!
Shallow embedding of the ir-tester audio pipeline.

Sources embedded here:
* src/audio/audio_engine.py   (class AudioEngine)
* src/audio/convolution.py    (class ConvolutionProcessor)
* src/audio/convolution_worker.py (class ConvolutionWorker.run)
* src/audio/equalizer.py      (class Equalizer.process_frame)

Modelling conventions:
* numpy float32/float64 samples are idealised as rationals (ℚ); the
  `astype(np.float32)` / `ascontiguousarray` conversions are the identity
  under this idealisation.
* External library routines that are pure numeric kernels not part of this
  repository (scipy.signal.resample's interpolation kernel, scipy.signal.sosfilt
  with the designed biquad cascade) are taken as explicit function parameters;
  every theorem quantifies over them, so nothing depends on a particular kernel.
  scipy.signal.fftconvolve in mode full is mathematically the full discrete
  convolution and is embedded directly (convFull).
* Python exceptions are modelled explicitly: a function that can raise returns
  an Option/Except or a success flag, and each except handler is a match on
  that outcome.  sounddevice's CallbackStop is a subclass of Exception, so in
  the callback model it is an outcome that the callback's own blanket
  except-handler catches.
-/

/-! ## AudioEngine (src/audio/audio_engine.py) -/

/-- State of `AudioEngine.__init__` (lines 15-22).  `stream` records whether a
sounddevice OutputStream object is currently held. -/
structure AudioEngine where
  audio_data : Option (List ℚ)
  sample_rate : Option ℕ
  position : ℕ
  volume : ℚ
  is_playing : Bool
  is_paused : Bool
  stream : Bool
  deriving Repr, DecidableEq

/-- `AudioEngine.__init__`: no audio, position 0, volume 0.8, flags cleared. -/
def AudioEngine.init : AudioEngine :=
  { audio_data := none, sample_rate := none, position := 0, volume := 8/10,
    is_playing := false, is_paused := false, stream := false }

/-- `AudioEngine.has_audio` (line 31-33). -/
def AudioEngine.has_audio (st : AudioEngine) : Bool :=
  st.audio_data.isSome

/-- `AudioEngine.stop` (lines 128-140): clears flags, resets position,
closes and drops the stream. -/
def AudioEngine.stop (st : AudioEngine) : AudioEngine :=
  { st with is_playing := false, is_paused := false, position := 0,
            stream := false }

/-- `AudioEngine.load_audio` (lines 24-29): stop, then install the new buffer
(astype float32 is the identity on ℚ samples), its rate, and reset position. -/
def AudioEngine.load_audio (audio_data : List ℚ) (sample_rate : ℕ)
    (st : AudioEngine) : AudioEngine :=
  { st.stop with audio_data := some audio_data, sample_rate := some sample_rate,
                 position := 0 }

/-- `AudioEngine.update_audio` (lines 35-42): hot-swap of the buffer.  The
Python if/else performs the same assignment in both branches; the contiguous
float32 conversion is the identity on ℚ samples. -/
def AudioEngine.update_audio (audio_data : List ℚ) (st : AudioEngine) :
    AudioEngine :=
  if st.is_playing then { st with audio_data := some audio_data }
  else { st with audio_data := some audio_data }

/-- `AudioEngine.play` (lines 44-114) without the callback itself: if no audio,
return; otherwise close any previous stream, set playing, clear paused, and try
to start an OutputStream.  `startOk` is the outcome of the
`sd.OutputStream(...).start()` call: on failure the except handler clears
`_is_playing` (lines 112-114). -/
def AudioEngine.play (startOk : Bool) (st : AudioEngine) : AudioEngine :=
  if st.has_audio then
    let st1 := { st with stream := false }
    let st2 := { st1 with is_playing := true, is_paused := false }
    if startOk then { st2 with stream := true }
    else { st2 with is_playing := false }
  else st

/-- `AudioEngine.pause` (lines 116-118). -/
def AudioEngine.pause (st : AudioEngine) : AudioEngine :=
  { st with is_paused := true }

/-- `AudioEngine.resume` (lines 120-126). -/
def AudioEngine.resume (startOk : Bool) (st : AudioEngine) : AudioEngine :=
  if st.is_paused ∧ st.is_playing then { st with is_paused := false }
  else if ¬st.is_playing ∧ st.has_audio then st.play startOk
  else st

/-- Python `int()` applied to a rational: truncation toward zero. -/
def pytrunc (q : ℚ) : ℤ :=
  if 0 ≤ q then ⌊q⌋ else -⌊-q⌋

/-- `AudioEngine.get_position` (lines 160-165): position in seconds. -/
def AudioEngine.get_position (st : AudioEngine) : ℚ :=
  match st.audio_data, st.sample_rate with
  | some _, some r => (st.position : ℚ) / (r : ℚ)
  | _, _ => 0

/-- `AudioEngine.seek` (lines 142-149): clamp
`int(position_seconds * sample_rate)` into `[0, len(audio_data) - 1]`.
`load_audio` always sets `sample_rate` together with `audio_data`, so the
rate is present whenever audio is. -/
def AudioEngine.seek (position_seconds : ℚ) (st : AudioEngine) : AudioEngine :=
  match st.audio_data, st.sample_rate with
  | some buf, some r =>
      let p : ℤ := pytrunc (position_seconds * (r : ℚ))
      { st with position := (max 0 (min p ((buf.length : ℤ) - 1))).toNat }
  | _, _ => st

/-- `AudioEngine.seek_relative` (lines 151-158). -/
def AudioEngine.seek_relative (delta_seconds : ℚ) (st : AudioEngine) :
    AudioEngine :=
  if st.has_audio then st.seek (st.get_position + delta_seconds)
  else st

/-- Outcome of the callback's try-block (lines 61-94): `normal` means it ran to
the end, `stopRaised` means `raise sd.CallbackStop()` was executed (line 82). -/
inductive CbOutcome where
  | normal
  | stopRaised
  deriving Repr, DecidableEq

/-- Body of the playback callback (the try-block, lines 62-94).  Returns the
updated engine state, the block written to `outdata` (a block of `frames`
samples), and whether `sd.CallbackStop` was raised. -/
def AudioEngine.callback_body (st : AudioEngine) (frames : ℕ) :
    AudioEngine × List ℚ × CbOutcome :=
  if st.is_paused ∨ ¬st.is_playing then
    (st, List.replicate frames 0, .normal)
  else
    match st.audio_data with
    | none => (st, List.replicate frames 0, .normal)
    | some current_audio =>
      let audio_len := current_audio.length
      let pos := st.position
      let end_pos := pos + frames
      if pos ≥ audio_len then
        ({ st with is_playing := false }, List.replicate frames 0, .stopRaised)
      else if end_pos > audio_len then
        let remaining := audio_len - pos
        let chunk := (current_audio.drop pos).take (audio_len - pos)
        ({ st with position := audio_len },
         chunk.map (fun x => x * st.volume) ++
           List.replicate (frames - remaining) 0,
         .normal)
      else
        ({ st with position := end_pos },
         ((current_audio.drop pos).take frames).map (fun x => x * st.volume),
         .normal)

/-- The full callback (lines 61-100): the try-body wrapped in
`except Exception` (line 96).  `sd.CallbackStop` is a subclass of `Exception`,
so the handler catches it too, prints, and fills the block with zeros; nothing
propagates out of the callback.  The final Bool is whether any exception — in
particular `sd.CallbackStop` — reaches the host stream: it is `false` on every
path. -/
def AudioEngine.callback (st : AudioEngine) (frames : ℕ) :
    AudioEngine × List ℚ × Bool :=
  match st.callback_body frames with
  | (st1, out, .normal) => (st1, out, false)
  | (st1, _, .stopRaised) => (st1, List.replicate frames 0, false)

/-- The externally invokable operations of the engine, for invariant
statements over call sequences.  `play`/`resume` carry the outcome of the
stream start; `callback` carries the host-chosen block size. -/
inductive EngineOp where
  | load (audio_data : List ℚ) (sample_rate : ℕ)
  | update (audio_data : List ℚ)
  | play (startOk : Bool)
  | pause
  | resume (startOk : Bool)
  | stop
  | seek (position_seconds : ℚ)
  | seekRel (delta_seconds : ℚ)
  | callback (frames : ℕ)
  deriving Repr, DecidableEq

/-- One engine operation applied to a state. -/
def AudioEngine.step (st : AudioEngine) : EngineOp → AudioEngine
  | .load d r => st.load_audio d r
  | .update d => st.update_audio d
  | .play ok => st.play ok
  | .pause => st.pause
  | .resume ok => st.resume ok
  | .stop => st.stop
  | .seek s => st.seek s
  | .seekRel s => st.seek_relative s
  | .callback f => (st.callback f).1

/-- Run a sequence of engine operations from a state. -/
def AudioEngine.run (st : AudioEngine) (ops : List EngineOp) : AudioEngine :=
  ops.foldl AudioEngine.step st

/-- Whether an operation is the hot-swap `update_audio`. -/
def EngineOp.isUpdate : EngineOp → Bool
  | .update _ => true
  | _ => false

/-- The cursor invariant of claim C1: whenever audio is loaded, the
sample-position cursor is at most the buffer length. -/
def AudioEngine.posInv (st : AudioEngine) : Prop :=
  ∀ buf, st.audio_data = some buf → st.position ≤ buf.length

/-! ## ConvolutionProcessor (src/audio/convolution.py) -/

/-- State of `ConvolutionProcessor.__init__` (lines 15-21). -/
structure ConvState where
  ir_data : Option (List ℚ)
  ir_sample_rate : Option ℕ
  di_data : Option (List ℚ)
  di_sample_rate : Option ℕ
  last_result : Option (List ℚ)
  last_sample_rate : Option ℕ
  deriving Repr, DecidableEq

/-- `np.max(np.abs(data))` for a nonempty list (raises on the empty list,
which callers model separately). -/
def maxAbs (data : List ℚ) : ℚ :=
  (data.map (fun x => |x|)).foldr max 0

/-- The normalisation step shared by `load_ir`/`load_di` (lines 40-43, 73-76):
divide by the peak absolute value when it is positive. -/
def normalizePeak (data : List ℚ) : List ℚ :=
  if maxAbs data > 0 then data.map (fun x => x / maxAbs data) else data

/-- `ConvolutionProcessor.load_ir` (lines 23-54).  `readResult` is the outcome
of `sf.read`/`sf.info` (after mono conversion): `none` models a raised
exception (file missing, undecodable, I/O error).  Inside the try-block,
`np.max` on zero-length data and the duration division by a zero sample rate
also raise.  Every raised exception lands in the except handler (lines 51-54),
which clears `ir_data` and `ir_sample_rate` and re-raises; the Bool is `true`
exactly when the load succeeded. -/
def ConvState.load_ir (readResult : Option (List ℚ × ℕ)) (st : ConvState) :
    ConvState × Bool :=
  match readResult with
  | none => ({ st with ir_data := none, ir_sample_rate := none }, false)
  | some (data, sample_rate) =>
      if data = [] ∨ sample_rate = 0 then
        ({ st with ir_data := none, ir_sample_rate := none }, false)
      else
        ({ st with ir_data := some (normalizePeak data),
                   ir_sample_rate := some sample_rate }, true)

/-- `ConvolutionProcessor.load_di` (lines 56-87): same shape as `load_ir`,
clearing `di_data` and `di_sample_rate` on failure (lines 84-87). -/
def ConvState.load_di (readResult : Option (List ℚ × ℕ)) (st : ConvState) :
    ConvState × Bool :=
  match readResult with
  | none => ({ st with di_data := none, di_sample_rate := none }, false)
  | some (data, sample_rate) =>
      if data = [] ∨ sample_rate = 0 then
        ({ st with di_data := none, di_sample_rate := none }, false)
      else
        ({ st with di_data := some (normalizePeak data),
                   di_sample_rate := some sample_rate }, true)

/-- Line 107: `int(len(self.ir_data) * self.di_sample_rate / self.ir_sample_rate)`.
The operands are nonnegative, so Python's `int()` truncation equals the floor,
i.e. natural division. -/
def resampled_length (ir_len di_rate ir_rate : ℕ) : ℕ :=
  ir_len * di_rate / ir_rate

/-- The resampling step of `process` (lines 103-108).  `resample` stands for
`scipy.signal.resample`, an external kernel that returns exactly the requested
number of samples.  `none` models an exception caught by the handler at lines
147-151: comparing a present rate with a missing one makes the arithmetic on
`None` raise TypeError, and `ir_rate = 0` makes the division raise
ZeroDivisionError. -/
def ConvState.resample_ir (resample : List ℚ → ℕ → List ℚ) (st : ConvState)
    (ir : List ℚ) : Option (List ℚ) :=
  if st.ir_sample_rate ≠ st.di_sample_rate then
    match st.ir_sample_rate, st.di_sample_rate with
    | some irr, some dir => if irr = 0 then none
        else some (resample ir (resampled_length ir.length dir irr))
    | _, _ => none
  else some ir

/-- `scipy.signal.fftconvolve(f, g, mode=full)`: the full discrete convolution,
of length `len f + len g - 1` for nonempty inputs and empty when either input
is empty. -/
def convFull (f g : List ℚ) : List ℚ :=
  if f = [] ∨ g = [] then []
  else
    (List.range (f.length + g.length - 1)).map (fun n =>
      ((List.range (n + 1)).map
        (fun k => f.getD k 0 * g.getD (n - k) 0)).sum)

/-- `ConvolutionProcessor.process` (lines 89-151).  Returns the Python return
value `(audio_data, sample_rate)` paired with the post-call state.  All
exceptions inside the try-block (resampling failures, `np.max` on an empty
wet signal) are caught at lines 147-151 and turned into `(None, None)` with
the state untouched.  On success the result and rate are stored in
`last_result`/`last_sample_rate` (lines 142-143). -/
def ConvState.process (resample : List ℚ → ℕ → List ℚ) (st : ConvState)
    (wet_mix : ℚ) : (Option (List ℚ) × Option ℕ) × ConvState :=
  match st.ir_data, st.di_data with
  | some ir, some di =>
      (match st.resample_ir resample ir with
       | none => ((none, none), st)
       | some ir_resampled =>
         let wet0 := convFull di ir_resampled
         let output_length := di.length + ir_resampled.length - 1
         let wet_signal := wet0.take output_length
         if wet_signal = [] then ((none, none), st)
         else
           let max_wet := maxAbs wet_signal
           let wet1 := if max_wet > 0 then
               wet_signal.map (fun x => x / max_wet) else wet_signal
           let result :=
             if wet_mix < 1 then
               let dry_signal :=
                 (di ++ List.replicate (wet1.length - di.length) 0).take
                   wet1.length
               List.zipWith
                 (fun d w => (1 - wet_mix) * d + wet_mix * w) dry_signal wet1
             else wet1
           let max_result := maxAbs result
           let result1 := if max_result > 0 then
               result.map (fun x => x / max_result * (9/10)) else result
           ((some result1, st.di_sample_rate),
            { st with last_result := some result1,
                      last_sample_rate := st.di_sample_rate }))
  | _, _ => ((none, none), st)

/-- The rounding the spec prescribes for the resampled IR length:
`round(a / b)` to the nearest integer (half rounds up), as naturals. -/
def specRound (a b : ℕ) : ℕ :=
  (2 * a + b) / (2 * b)

/-! ## Equalizer (src/audio/equalizer.py) -/

/-- `np.clip(x, -1.0, 1.0)` on one sample (line 65). -/
def clip (x : ℚ) : ℚ :=
  min (max x (-1)) 1

namespace Equalizer

/-- The ISO band centre frequencies (line 11). -/
def BANDS : List ℕ := [31, 62, 125, 250, 500, 1000, 2000, 4000, 8000, 16000]

/-- `Equalizer.process_frame` (lines 13-67).  `sosfilt` stands for
`scipy.signal.sosfilt` applied to the cascaded biquad sections designed from
the active (nonzero-gain) bands and the sample rate; its transcendental
coefficient design (lines 37-51, 69-91) is external numerics, so the theorems
quantify over it.  The length check raises ValueError (modelled as `.error`);
all-zero gains bypass (lines 22-24); bands with zero gain are skipped
(lines 32-33), and if no section was built the input is returned (lines 53-54);
otherwise the filtered signal is hard-clipped to [-1, 1] (line 65) and the
float32 conversion is the identity on ℚ samples. -/
def process_frame (sosfilt : List ℚ → ℕ → List ℚ → List ℚ)
    (audio_data : List ℚ) (sample_rate : ℕ) (gains_db : List ℚ) :
    Except String (List ℚ) :=
  if gains_db.length ≠ 10 then
    .error "São necessários exatamente 10 valores de ganho."
  else if gains_db.all (fun g => g = 0) then .ok audio_data
  else
    let active := gains_db.filter (fun g => g ≠ 0)
    if active = [] then .ok audio_data
    else .ok ((sosfilt active sample_rate audio_data).map clip)

end Equalizer

/-! ## ConvolutionWorker (src/audio/convolution_worker.py) -/

/-- The Qt signals a `ConvolutionWorker` can emit (lines 15-17).  `finished`
forwards exactly the pair produced by `process`. -/
inductive WorkerSignal where
  | progress (value : ℕ)
  | finished (audio_data : List ℚ) (sample_rate : Option ℕ)
  | error (message : String)
  deriving Repr, DecidableEq

/-- Whether a signal is `finished`. -/
def WorkerSignal.isFinished : WorkerSignal → Bool
  | .finished _ _ => true
  | _ => false

/-- Whether a signal is `error`. -/
def WorkerSignal.isError : WorkerSignal → Bool
  | .error _ => true
  | _ => false

/-- `ConvolutionWorker.run` (lines 24-39).  `procResult` is the outcome of
`self.convolution_processor.process(self.wet_mix)`: `.error` models an
exception escaping the call (caught by the except at lines 38-39), `.ok`
carries the returned `(audio_data, sample_rate)` pair.  The function returns
the list of emitted signals in order. -/
def ConvolutionWorker.run
    (procResult : Except String (Option (List ℚ) × Option ℕ)) :
    List WorkerSignal :=
  match procResult with
  | .error e => [.progress 10, .error e]
  | .ok (none, _) =>
      [.progress 10, .progress 100,
       .error "Erro ao processar convolução - resultado vazio"]
  | .ok (some audio_data, sample_rate) =>
      [.progress 10, .progress 100, .finished audio_data sample_rate]

/-! ## Concrete inputs used by witnesses and counterexamples -/

/-- A concrete resampling kernel satisfying scipy's length contract
(`signal.resample(x, num)` returns exactly `num` samples): pad with zeros and
take the requested number. -/
def takeResample : List ℚ → ℕ → List ℚ :=
  fun x n => (x ++ List.replicate n 0).take n

/-- Load a 3-sample buffer at rate 1, play, let the callback advance the
cursor to sample 2, then hot-swap in a 1-sample buffer. -/
def hotSwapOps : List EngineOp :=
  [.load [0, 0, 0] 1, .play true, .callback 2, .update [0]]

/-- An operation sequence without any hot-swap. -/
def noUpdateOps : List EngineOp :=
  [.load [0, 0] 1, .play true, .callback 1, .pause, .resume true, .stop]

/-- An engine that is playing a 1-sample buffer with the cursor already at the
end of the buffer. -/
def playingAtEnd : AudioEngine :=
  { audio_data := some [1], sample_rate := some 1, position := 1,
    volume := 8/10, is_playing := true, is_paused := false, stream := true }

/-- A processor holding a 3-sample IR at 44100 Hz and a 2-sample DI at
22050 Hz (mismatched rates, so `process` resamples). -/
def mismatchedRates : ConvState :=
  { ir_data := some [1, 0, 0], ir_sample_rate := some 44100,
    di_data := some [1, 0], di_sample_rate := some 22050,
    last_result := none, last_sample_rate := none }

/-- A processor holding a 0.5-second IR and a 2-second DI, both at 44100 Hz:
the scenario of claim C4. -/
def equalRates : ConvState :=
  { ir_data := some (List.replicate 22050 1), ir_sample_rate := some 44100,
    di_data := some (List.replicate 88200 1), di_sample_rate := some 44100,
    last_result := none, last_sample_rate := none }

/-- A processor with both assets and a previous result loaded. -/
def fullyLoaded : ConvState :=
  { ir_data := some [1], ir_sample_rate := some 48000,
    di_data := some [1], di_sample_rate := some 48000,
    last_result := some [1], last_sample_rate := some 48000 }

/-- A processor with no IR but a loaded DI and a stale last result. -/
def missingIr : ConvState :=
  { ir_data := none, ir_sample_rate := none,
    di_data := some [1], di_sample_rate := some 48000,
    last_result := some [1], last_sample_rate := some 48000 }

/-! ## Helper lemmas -/

/-- One clipped sample lies in the unit interval. -/
theorem abs_clip_le_one (x : ℚ) : |clip x| ≤ 1 := by
  rw [abs_le]
  constructor
  · exact le_min (le_max_right x (-1)) (by norm_num)
  · exact min_le_right _ 1

/-- Length of the full convolution of nonempty inputs. -/
theorem convFull_length (f g : List ℚ) (hf : f ≠ []) (hg : g ≠ []) :
    (convFull f g).length = f.length + g.length - 1 := by
  simp [convFull, hf, hg]

/-- Length contract of the concrete resampling kernel. -/
theorem takeResample_length (x : List ℚ) (n : ℕ) :
    (takeResample x n).length = n := by
  simp [takeResample]

/-- `posInv` transfers along equal buffer and cursor fields. -/
theorem posInv_of_fields {st st' : AudioEngine}
    (ha : st'.audio_data = st.audio_data) (hp : st'.position = st.position)
    (h : st.posInv) : st'.posInv := by
  intro buf hb
  rw [ha] at hb
  rw [hp]
  exact h buf hb

/-- `play` touches only the flags and the stream. -/
theorem play_fields (startOk : Bool) (st : AudioEngine) :
    (st.play startOk).audio_data = st.audio_data ∧
    (st.play startOk).position = st.position := by
  unfold AudioEngine.play
  split_ifs <;> simp

/-- `seek` establishes the cursor bound outright: the clamped position is at
most the buffer length. -/
theorem seek_posInv (s : ℚ) (st : AudioEngine) (h : st.posInv) :
    (st.seek s).posInv := by
  cases hbuf : st.audio_data with
  | none =>
      have hid : st.seek s = st := by
        unfold AudioEngine.seek
        rw [hbuf]
      rw [hid]
      exact h
  | some buf =>
      cases hr : st.sample_rate with
      | none =>
          have hid : st.seek s = st := by
            unfold AudioEngine.seek
            rw [hbuf, hr]
          rw [hid]
          exact h
      | some r =>
          have hs : st.seek s =
              { st with position :=
                  (max 0 (min (pytrunc (s * (r : ℚ)))
                    ((buf.length : ℤ) - 1))).toNat } := by
            unfold AudioEngine.seek
            rw [hbuf, hr]
          rw [hs]
          intro buf2 hb2
          simp only at hb2 ⊢
          rw [hbuf] at hb2
          cases hb2
          omega

/-- The state component of one callback invocation preserves the cursor
bound. -/
theorem callback_posInv (frames : ℕ) (st : AudioEngine) (h : st.posInv) :
    (st.callback frames).1.posInv := by
  have hbody : (st.callback frames).1 = (st.callback_body frames).1 := by
    unfold AudioEngine.callback
    rcases hcb : st.callback_body frames with ⟨st1, out, oc⟩
    cases oc <;> simp
  rw [hbody]
  unfold AudioEngine.callback_body
  split_ifs with hpaused
  · exact h
  · cases hbuf : st.audio_data with
    | none => exact h
    | some current_audio =>
        simp only
        split_ifs with hend hover
        · exact posInv_of_fields hbuf.symm rfl h
        · intro buf2 hb2
          simp only at hb2 ⊢
          cases hb2
          exact le_refl _
        · intro buf2 hb2
          simp only at hb2 ⊢
          cases hb2
          omega

/-- Every engine operation other than `update_audio` preserves the cursor
bound. -/
theorem step_posInv (st : AudioEngine) (op : EngineOp) (h : st.posInv)
    (hup : op.isUpdate = false) : (st.step op).posInv := by
  cases op with
  | load d r =>
      intro buf hb
      simp [AudioEngine.step, AudioEngine.load_audio, AudioEngine.stop]
  | update d => simp [EngineOp.isUpdate] at hup
  | play ok =>
      exact posInv_of_fields (play_fields ok st).1 (play_fields ok st).2 h
  | pause => exact posInv_of_fields rfl rfl h
  | resume ok =>
      simp only [AudioEngine.step, AudioEngine.resume]
      split_ifs
      · exact posInv_of_fields rfl rfl h
      · exact posInv_of_fields (play_fields ok st).1 (play_fields ok st).2 h
      · exact h
  | stop =>
      intro buf hb
      simp [AudioEngine.step, AudioEngine.stop]
  | seek s => exact seek_posInv s st h
  | seekRel s =>
      simp only [AudioEngine.step, AudioEngine.seek_relative]
      split_ifs
      · exact seek_posInv _ st h
      · exact h
  | callback f => exact callback_posInv f st h

/-- The cursor bound holds after any hot-swap-free operation sequence from a
state satisfying it. -/
theorem run_posInv (ops : List EngineOp) (st : AudioEngine) (h : st.posInv)
    (hops : ∀ op ∈ ops, op.isUpdate = false) : (st.run ops).posInv := by
  induction ops generalizing st with
  | nil => exact h
  | cons op rest ih =>
      simp only [AudioEngine.run, List.foldl_cons]
      exact ih (st.step op)
        (step_posInv st op h (hops op (List.mem_cons_self op rest)))
        (fun o ho => hops o (List.mem_cons_of_mem op ho))

/-! ## C1: the cursor can exceed the buffer length after a hot-swap -/

/-- C1 counterexample: load a 3-sample buffer, advance the cursor to 2 via a
callback, then hot-swap in a 1-sample buffer — the cursor (2) now exceeds the
active buffer's length (1), refuting the claimed invariant for sequences that
include `update_audio`. -/
theorem position_exceeds_length_after_hotswap :
    (AudioEngine.init.run hotSwapOps).audio_data = some [0] ∧
    (AudioEngine.init.run hotSwapOps).position = 2 ∧
    ¬(AudioEngine.init.run hotSwapOps).posInv := by
  refine ⟨by decide, by decide, fun hinv => ?_⟩
  have h2 := hinv [0] (by decide)
  simp at h2
  have h3 : (AudioEngine.init.run hotSwapOps).position = 2 := by decide
  omega

/-- C1 (amended): after any sequence of `load_audio`, `play`, `pause`,
`resume`, `stop`, `seek`, `seek_relative` calls and callback invocations that
contains no `update_audio`, the sample-position cursor never exceeds the
length of the active buffer; `update_audio` itself can break the bound by
installing a buffer shorter than the current cursor. -/
theorem engine_position_le_length_without_hotswap (ops : List EngineOp)
    (hops : ∀ op ∈ ops, op.isUpdate = false) :
    (AudioEngine.init.run ops).posInv :=
  run_posInv ops AudioEngine.init
    (fun buf hb => by simp [AudioEngine.init] at hb) hops

/-- C1 witness: a concrete hot-swap-free session keeps the cursor within the
buffer. -/
theorem engine_position_le_length_without_hotswap_witness :
    (∀ op ∈ noUpdateOps, op.isUpdate = false) ∧
    (AudioEngine.init.run noUpdateOps).posInv :=
  ⟨by decide, engine_position_le_length_without_hotswap noUpdateOps (by decide)⟩

/-! ## C2: the end-of-buffer stop signal never reaches the host stream -/

/-- C2 (code bug evidence): with the engine playing and the cursor at the end
of the buffer, the callback emits a full block of silence and clears the
playing flag, and the following callback is silent again — but the stop signal
never reaches the host stream (the final component is `false`, not `true`):
`raise sd.CallbackStop()` at line 82 is caught by the callback's own blanket
`except Exception` handler at line 96, because `sd.CallbackStop` subclasses
`Exception`, so the host keeps the stream running on silence instead of
stopping it. -/
theorem callback_stop_swallowed_by_handler :
    (playingAtEnd.callback 4).2.1 = List.replicate 4 0 ∧
    (playingAtEnd.callback 4).1.is_playing = false ∧
    ((playingAtEnd.callback 4).1.callback 4).2.1 = List.replicate 4 0 ∧
    (playingAtEnd.callback 4).2.2 = false ∧
    (playingAtEnd.callback_body 4).2.2 = .stopRaised := by
  decide

/-- C3: for every engine state, `update_audio(buffer)` leaves the cursor, the
sample rate, the volume, and the playing/paused flags (and the stream)
unchanged, and the active buffer becomes exactly the given buffer (whose
contiguous float32 conversion is the identity in this model). -/
theorem update_audio_only_swaps_buffer (st : AudioEngine) (buf : List ℚ) :
    (st.update_audio buf).audio_data = some buf ∧
    (st.update_audio buf).position = st.position ∧
    (st.update_audio buf).sample_rate = st.sample_rate ∧
    (st.update_audio buf).volume = st.volume ∧
    (st.update_audio buf).is_playing = st.is_playing ∧
    (st.update_audio buf).is_paused = st.is_paused ∧
    (st.update_audio buf).stream = st.stream := by
  unfold AudioEngine.update_audio
  split <;> simp

/-! ## C6: equalizer bypass on all-zero gains -/

/-- C6: for every filter kernel, buffer, and sample rate, `process_frame` with
ten zero gains returns the input buffer unchanged (bypass, no filtering). -/
theorem equalizer_bypass_zero_gains (sosfilt : List ℚ → ℕ → List ℚ → List ℚ)
    (audio_data : List ℚ) (sample_rate : ℕ) :
    Equalizer.process_frame sosfilt audio_data sample_rate
      (List.replicate 10 0) = .ok audio_data := by
  rfl

/-! ## C9: failed loads clear the corresponding asset -/

/-- C9: whenever `load_ir` (respectively `load_di`) fails — read exception,
undecodable data, or any other error in its try-block — the corresponding
asset and its sample rate are cleared before the failure is surfaced, whatever
the previous state held, and the other side's fields are untouched. -/
theorem load_failure_clears_asset (st : ConvState)
    (r : Option (List ℚ × ℕ)) :
    ((st.load_ir r).2 = false →
      (st.load_ir r).1.ir_data = none ∧
      (st.load_ir r).1.ir_sample_rate = none ∧
      (st.load_ir r).1.di_data = st.di_data ∧
      (st.load_ir r).1.di_sample_rate = st.di_sample_rate) ∧
    ((st.load_di r).2 = false →
      (st.load_di r).1.di_data = none ∧
      (st.load_di r).1.di_sample_rate = none ∧
      (st.load_di r).1.ir_data = st.ir_data ∧
      (st.load_di r).1.ir_sample_rate = st.ir_sample_rate) := by
  constructor <;>
    (intro hfail
     cases r with
     | none => simp [ConvState.load_ir, ConvState.load_di]
     | some dr =>
         obtain ⟨data, rate⟩ := dr
         by_cases hbad : data = [] ∨ rate = 0
         · simp [ConvState.load_ir, ConvState.load_di, hbad]
         · simp [ConvState.load_ir, ConvState.load_di, hbad] at hfail)

/-- C9 witness: with both assets loaded, a failing IR read clears the IR side
and keeps the DI side. -/
theorem load_failure_clears_asset_witness :
    (fullyLoaded.load_ir none).2 = false ∧
    (fullyLoaded.load_ir none).1.ir_data = none ∧
    (fullyLoaded.load_ir none).1.ir_sample_rate = none ∧
    (fullyLoaded.load_ir none).1.di_data = some [1] := by
  have h := (load_failure_clears_asset fullyLoaded none).1 rfl
  exact ⟨rfl, h.1, h.2.1, h.2.2.1.trans rfl⟩

/-! ## C10: the worker emits exactly one terminal signal -/

/-- C10: every run of `ConvolutionWorker` emits exactly one of `finished` or
`error`; `finished` carries precisely the processor's buffer and rate when the
buffer is non-None, and a None buffer is reported through `error`, not
dropped. -/
theorem worker_one_terminal_signal
    (r : Except String (Option (List ℚ) × Option ℕ)) :
    ((ConvolutionWorker.run r).countP WorkerSignal.isFinished +
      (ConvolutionWorker.run r).countP WorkerSignal.isError = 1) ∧
    (∀ buf rate, r = .ok (some buf, rate) →
      WorkerSignal.finished buf rate ∈ ConvolutionWorker.run r) ∧
    (∀ rate, r = .ok (none, rate) →
      (ConvolutionWorker.run r).countP WorkerSignal.isError = 1) := by
  refine ⟨?_, ?_, ?_⟩
  · rcases r with e | ⟨buf, rate⟩
    · simp [ConvolutionWorker.run, List.countP_cons, List.countP_nil, WorkerSignal.isFinished,
        WorkerSignal.isError]
    · rcases buf with _ | buf <;>
        simp [ConvolutionWorker.run, List.countP_cons, List.countP_nil, WorkerSignal.isFinished,
          WorkerSignal.isError]
  · intro buf rate hr
    subst hr
    simp [ConvolutionWorker.run]
  · intro rate hr
    subst hr
    simp [ConvolutionWorker.run, List.countP_cons, List.countP_nil, WorkerSignal.isFinished,
      WorkerSignal.isError]

/-! ## C7: equalizer output stays in the unit interval -/

/-- C7: for any filter kernel, any ten gains within ±12 dB, and any buffer
with samples in [-1, 1], `process_frame` succeeds and every output sample lies
in [-1, 1] — either the bypass returns the bounded input, or the filtered
signal is hard-clipped to [-1, 1]. -/
theorem equalizer_output_bounded (sosfilt : List ℚ → ℕ → List ℚ → List ℚ)
    (gains_db audio_data : List ℚ) (sample_rate : ℕ)
    (hlen : gains_db.length = 10) (hg : ∀ g ∈ gains_db, |g| ≤ 12)
    (ha : ∀ x ∈ audio_data, |x| ≤ 1) :
    ∃ out, Equalizer.process_frame sosfilt audio_data sample_rate gains_db
        = .ok out ∧ ∀ y ∈ out, |y| ≤ 1 := by
  unfold Equalizer.process_frame
  rw [if_neg (by simp [hlen])]
  split_ifs with hz
  · exact ⟨audio_data, rfl, ha⟩
  · simp only
    split_ifs with hact
    · exact ⟨audio_data, rfl, ha⟩
    · refine ⟨_, rfl, ?_⟩
      intro y hy
      simp only [List.mem_map] at hy
      obtain ⟨x, _, rfl⟩ := hy
      exact abs_clip_le_one x

/-- C7 witness: a passthrough kernel, full +12 dB gains, and a half-scale
sample stay within [-1, 1]. -/
theorem equalizer_output_bounded_witness :
    ∃ out, Equalizer.process_frame (fun _ _ audio => audio) [1/2] 44100
        (List.replicate 10 12) = .ok out ∧ ∀ y ∈ out, |y| ≤ 1 :=
  equalizer_output_bounded (fun _ _ audio => audio) (List.replicate 10 12)
    [1/2] 44100 (by simp)
    (fun g hg => by rw [List.eq_of_mem_replicate hg, abs_le]
                    exact ⟨by norm_num, by norm_num⟩)
    (fun x hx => by rw [List.mem_singleton.mp hx, abs_le]
                    exact ⟨by norm_num, by norm_num⟩)

/-! ## C8: process returns (None, None) on missing assets and on errors -/

/-- C8: `process` returns `(None, None)` whenever the IR or the DI is not
loaded, and whenever its result is `None` — including every caught in-flight
error (resample failure on inconsistent or zero rates, empty wet signal) — the
processor state, in particular its stored assets and last result, is
unchanged. -/
theorem process_none_on_missing_and_error (resample : List ℚ → ℕ → List ℚ)
    (st : ConvState) (wet_mix : ℚ) :
    ((st.ir_data = none ∨ st.di_data = none) →
      st.process resample wet_mix = ((none, none), st)) ∧
    ((st.process resample wet_mix).1.1 = none →
      (st.process resample wet_mix).2 = st) := by
  constructor
  · intro h
    rcases h with h | h
    · cases hdi : st.di_data <;> simp [ConvState.process, h, hdi]
    · cases hir : st.ir_data <;> simp [ConvState.process, h, hir]
  · intro h
    cases hir : st.ir_data with
    | none => simp [ConvState.process, hir]
    | some ir =>
      cases hdi : st.di_data with
      | none => simp [ConvState.process, hir, hdi]
      | some di =>
        cases hres : st.resample_ir resample ir with
        | none => simp [ConvState.process, hir, hdi, hres]
        | some ir_res =>
            simp only [ConvState.process, hir, hdi, hres] at h ⊢
            split_ifs at h ⊢ with hws
            rfl

/-- C8 witness: with no IR loaded, `process` returns `(None, None)` and leaves
the state — including the stale last result — untouched. -/
theorem process_none_on_missing_and_error_witness :
    missingIr.process takeResample 1 = ((none, none), missingIr) :=
  (process_none_on_missing_and_error takeResample missingIr 1).1 (Or.inl rfl)

/-! ## C4: output length is N + M - 1 at the DI's sample rate -/

/-- The wet normalisation step keeps the buffer length. -/
theorem wetnorm_length (l : List ℚ) :
    (if maxAbs l > 0 then l.map (fun x => x / maxAbs l) else l).length
      = l.length := by
  split_ifs <;> simp

/-- The dry/wet mixing step keeps the wet buffer length. -/
theorem mix_length (w : ℚ) (d l : List ℚ) :
    (if w < 1 then
        List.zipWith (fun a b => (1 - w) * a + w * b)
          ((d ++ List.replicate (l.length - d.length) 0).take l.length) l
      else l).length = l.length := by
  split_ifs <;>
    simp [List.length_zipWith, List.length_take, List.length_append,
      List.length_replicate] <;>
    omega

/-- The final normalisation (with 0.9 headroom) keeps the buffer length. -/
theorem finalnorm_length (l : List ℚ) :
    (if maxAbs l > 0 then l.map (fun x => x / maxAbs l * (9/10)) else l).length
      = l.length := by
  split_ifs <;> simp

/-- C4: for a loaded DI of length N and an IR whose resampled form has length
M (both nonzero), `process` returns a buffer of exactly N + M - 1 samples at
the DI's sample rate. -/
theorem process_output_length (resample : List ℚ → ℕ → List ℚ)
    (st : ConvState) (wet_mix : ℚ) (ir di ir_res : List ℚ)
    (hir : st.ir_data = some ir) (hdi : st.di_data = some di)
    (hres : st.resample_ir resample ir = some ir_res)
    (hdne : di ≠ []) (hrne : ir_res ≠ []) :
    ∃ out, (st.process resample wet_mix).1 = (some out, st.di_sample_rate) ∧
      out.length = di.length + ir_res.length - 1 := by
  have hN : 0 < di.length := List.length_pos.mpr hdne
  have hM : 0 < ir_res.length := List.length_pos.mpr hrne
  have hconv : (convFull di ir_res).length = di.length + ir_res.length - 1 :=
    convFull_length di ir_res hdne hrne
  have htake : (convFull di ir_res).take (di.length + ir_res.length - 1)
      = convFull di ir_res := by
    rw [← hconv]
    exact List.take_length _
  have hwne : convFull di ir_res ≠ [] := by
    intro hnil
    rw [hnil] at hconv
    simp at hconv
    omega
  simp only [ConvState.process, hir, hdi, hres, htake]
  rw [if_neg hwne]
  refine ⟨_, rfl, ?_⟩
  rw [finalnorm_length, mix_length, wetnorm_length, hconv]

/-- C4 witness: a 2-second DI and a 0.5-second IR, both at 44100 Hz, convolve
to 88200 + 22050 - 1 = 110249 samples at 44100 Hz. -/
theorem process_output_length_witness :
    ∃ out, (equalRates.process takeResample 1).1 = (some out, some 44100) ∧
      out.length = 110249 := by
  obtain ⟨out, h1, h2⟩ := process_output_length takeResample equalRates 1
    (List.replicate 22050 1) (List.replicate 88200 1) (List.replicate 22050 1)
    rfl rfl rfl
    (by rw [Ne, List.replicate_eq_nil_iff]; omega)
    (by rw [Ne, List.replicate_eq_nil_iff]; omega)
  refine ⟨out, h1, ?_⟩
  rw [List.length_replicate, List.length_replicate] at h2
  omega

/-! ## C5: the resampled IR length is floored, not rounded -/

/-- C5 counterexample: a 3-sample IR at 44100 Hz against a DI at 22050 Hz.
The spec's formula asks for `round(3 × 22050 / 44100) = round(1.5) = 2`
samples, but the code's `int(...)` truncation (line 107) produces 1 sample. -/
theorem resample_length_not_round :
    mismatchedRates.resample_ir takeResample [1, 0, 0] = some [1] ∧
    specRound (([1, 0, 0] : List ℚ).length * 22050) 44100 = 2 ∧
    ([1] : List ℚ).length ≠ 2 := by
  decide

/-- C5 (amended): when the rates differ, `process` resamples the IR to exactly
`floor(len(IR) × targetRate / sourceRate)` samples — Python `int()`
truncation of the nonnegative quotient — not to the rounded quotient. -/
theorem process_resamples_ir_floor_length (resample : List ℚ → ℕ → List ℚ)
    (st : ConvState) (ir : List ℚ) (irr dirate : ℕ)
    (hirr : st.ir_sample_rate = some irr)
    (hdir : st.di_sample_rate = some dirate)
    (hne : irr ≠ dirate) (h0 : irr ≠ 0)
    (hlen : ∀ x n, (resample x n).length = n) :
    ∃ l, st.resample_ir resample ir = some l ∧
      l.length = ir.length * dirate / irr := by
  rw [ConvState.resample_ir, hirr, hdir, if_pos (by simp [hne])]
  simp only [if_neg h0]
  exact ⟨_, rfl, hlen ir _⟩

/-- C5 witness: the 3-sample IR of the counterexample is resampled to
`floor(3 × 22050 / 44100) = 1` sample. -/
theorem process_resamples_ir_floor_length_witness :
    ∃ l, mismatchedRates.resample_ir takeResample [1, 0, 0] = some l ∧
      l.length = 1 := by
  obtain ⟨l, h1, h2⟩ := process_resamples_ir_floor_length takeResample
    mismatchedRates [1, 0, 0] 44100 22050 rfl rfl (by decide) (by decide)
    takeResample_length
  exact ⟨l, h1, by simpa using h2⟩

/-- C10 witness: a None result from the processor (here: assets missing) is
reported as exactly one error signal. -/
theorem worker_one_terminal_signal_witness :
    (ConvolutionWorker.run (.ok (none, none))).countP WorkerSignal.isError = 1 ∧
    (ConvolutionWorker.run (.ok (none, none))).countP WorkerSignal.isFinished +
      (ConvolutionWorker.run (.ok (none, none))).countP WorkerSignal.isError
        = 1 := by
  exact ⟨(worker_one_terminal_signal (.ok (none, none))).2.2 none rfl,
         (worker_one_terminal_signal (.ok (none, none))).1⟩
